import Mathlib

/-!
Verification of the synchronization engine of `gosyncv2` (the `gorsync`
backup tool). The repository contains two near-duplicate implementations
of the backup command: a concurrent batch synchronizer (with a semaphore
bounding concurrent transfers) and a sequential, directory-scoped
variant. Both are embedded below, together with the path/string helpers
from the Go standard library that they call.

Machine integers are modelled as `Int`/`Nat`; `time.Duration` is an
integer nanosecond count; `float64` arithmetic in the throughput report
is modelled in exact rational arithmetic (the branch structure is
unchanged). Filesystem and channel effects are modelled by explicit
oracles and a small-step transition relation.
-/

namespace Gosync

/-- Embeds Go `strings.Contains(s, substr)`: substring test.
`substr` occurs in `s` iff it is a prefix of some suffix of `s`. -/
def goContains (s substr : String) : Bool :=
  (s.data.tails).any fun t => substr.data.isPrefixOf t

/-- Embeds Go `path/filepath.Base` (unix rules, no volume names):
empty path gives ".", trailing slashes are stripped, an all-slash path
gives "/", otherwise the last path element is returned. -/
def goBase (path : String) : String :=
  if path = "" then "."
  else
    let stripped := (path.data.reverse.dropWhile (· = '/')).reverse
    if stripped = [] then "/"
    else String.mk ((stripped.reverse.takeWhile (· ≠ '/')).reverse)

/-- Splits a character list on '/', keeping empty components (the
char-level counterpart of Go's `strings.Split(path, "/")`). -/
def splitOnSlash (cs : List Char) : List (List Char) :=
  cs.foldr
    (fun c acc =>
      match acc with
      | fieldHead :: rest => if c = '/' then [] :: acc else (c :: fieldHead) :: rest
      | [] => [])
    [[]]

/-- Joins components with '/' (the char-level counterpart of
`strings.Join(comps, "/")`). -/
def joinSlash (fields : List (List Char)) : List Char :=
  (fields.intersperse ['/']).flatten

/-- One step of the component stack used by `goClean`: skips "" and ".",
pops on ".." (or records a ".." when there is nothing to pop and the
path is relative), pushes any other component. -/
def cleanPush (rooted : Bool) (stack : List (List Char)) (c : List Char) : List (List Char) :=
  if c = [] ∨ c = ['.'] then stack
  else if c = ['.', '.'] then
    match stack with
    | top :: rest => if top = ['.', '.'] then c :: stack else rest
    | [] => if rooted then [] else [c]
  else c :: stack

/-- Embeds Go `path/filepath.Clean` (unix rules) by its lexical
specification: iteratively eliminate empty, "." and ".." components,
".." backtracking over a preceding real component, and never escaping
the root of a rooted path. -/
def goClean (path : String) : String :=
  if path = "" then "."
  else
    let rooted := path.data.head? = some '/'
    let stack := (splitOnSlash path.data).foldl (cleanPush rooted) []
    let body := joinSlash stack.reverse
    if rooted then
      String.mk ('/' :: body)
    else
      if body = [] then "." else String.mk body

/-- Embeds Go `path/filepath.Dir` (unix rules): everything up to and
including the final slash, then `Clean` (so `Dir "a"` is "."). -/
def goDir (path : String) : String :=
  goClean (String.mk ((path.data.reverse.dropWhile (· ≠ '/')).reverse))

/-- Embeds Go `path/filepath.Join` on two elements: empty elements are
skipped, the rest are joined with "/" and cleaned; all-empty input
yields "". -/
def goJoin (a b : String) : String :=
  if a = "" && b = "" then ""
  else if a = "" then goClean b
  else if b = "" then goClean a
  else goClean (a ++ "/" ++ b)

/-- Embeds Go `path/filepath.Abs` given the process working directory:
an absolute path is just cleaned, a relative one is joined onto the
working directory. -/
def goAbs (cwd path : String) : String :=
  if path.data.head? = some '/' then goClean path else goJoin cwd path

/-- Embeds Go `path/filepath.Rel(basedir, targ)` restricted to the case
exercised by the watch loop: both arguments already clean and `basedir`
an ancestor of (or equal to) `targ`. `none` stands for the error
return of the full function in the remaining cases. -/
def goRel (basedir targ : String) : Option String :=
  if basedir = targ then some "."
  else if (basedir ++ "/").data.isPrefixOf targ.data then
    some (String.mk (targ.data.drop (basedir.data.length + 1)))
  else none

/-- Embeds `shouldInclude` (concurrent variant): with no configured
patterns every path is included, otherwise some pattern must be a
substring of the path's base name. -/
def shouldInclude (includePatterns : List String) (path : String) : Bool :=
  if includePatterns.length = 0 then true
  else includePatterns.any fun pattern => goContains (goBase path) pattern

/-- Embeds `matchesAnyInclude` (sequential variant): some include entry
is a substring of the base name or of the containing directory path.
Note: there is no empty-rule-set branch in the source; on an empty list
the loop body never runs and the function returns false. -/
def matchesAnyInclude (path : String) (includes : List String) : Bool :=
  includes.any fun inc => goContains (goBase path) inc || goContains (goDir path) inc

/-- Embeds `shouldWatch` (sequential variant's watch filter): empty
include list means watch everything, otherwise some include entry must
be a substring of the base name or of the containing directory path. -/
def shouldWatch (path : String) (includes : List String) : Bool :=
  if includes.length = 0 then true
  else includes.any fun inc => goContains (goBase path) inc || goContains (goDir path) inc

/-- `Substr sub s`: `sub` occurs contiguously inside `s`. This is the
specification-side notion of substring used to characterise
`goContains`. -/
def Substr (sub s : String) : Prop :=
  List.IsInfix sub.data s.data

/-- `goContains` decides exactly the substring relation. -/
theorem goContains_iff_substr (s sub : String) :
    goContains s sub = true ↔ Substr sub s := by
  unfold goContains Substr
  rw [List.any_eq_true]
  constructor
  · rintro ⟨t, ht, hp⟩
    rw [List.mem_tails] at ht
    rw [List.isPrefixOf_iff_prefix] at hp
    exact List.infix_iff_prefix_suffix.mpr ⟨t, hp, ht⟩
  · intro h
    obtain ⟨t, hp, hs⟩ := List.infix_iff_prefix_suffix.mp h
    exact ⟨t, (List.mem_tails t s.data).mpr hs, List.isPrefixOf_iff_prefix.mpr hp⟩

/-! ## Staleness detector -/

/-- Outcome of `os.Stat(destPath)` as the staleness check observes it:
the file does not exist, the stat failed for some other reason, or it
succeeded and reported a modification time (nanoseconds). -/
inductive StatResult where
  | notExist : StatResult
  | statFailed : StatResult
  | found (modTime : Int) : StatResult
deriving DecidableEq, Repr

/-- Embeds `shouldCopyFile` (identical in both variants), with the
source's modification time and the result of `os.Stat` on the
destination as inputs: missing destination means copy; any other stat
error means skip; otherwise copy iff the source modification time is
strictly after (`time.Time.After`) the destination's. -/
def shouldCopyFile (srcModTime : Int) (dstStat : StatResult) : Bool :=
  match dstStat with
  | .notExist => true
  | .statFailed => false
  | .found dstModTime => decide (dstModTime < srcModTime)

/-! ## Throughput report -/

/-- Embeds Go `time.Duration.Seconds` for a nanosecond count, in exact
rational arithmetic. -/
def durationSeconds (d : Int) : ℚ :=
  (d : ℚ) / 1000000000

/-- Embeds `calculateMBPerSecond` (concurrent variant): 0 when the
elapsed seconds value is zero, otherwise bytes divided by seconds,
converted to MiB/s. `float64` arithmetic is modelled exactly in ℚ; the
branch structure is that of the source. -/
def calculateMBPerSecond (size : Int) (elapsed : Int) : ℚ :=
  if durationSeconds elapsed = 0 then 0
  else (size : ℚ) / (durationSeconds elapsed * 1024 * 1024)

/-- Renders a rational with two decimal places (the exact-arithmetic
model of Go's `%.2f`, rounding half away from zero). -/
def fmtTwoDecimals (q : ℚ) : String :=
  let scaled : Int := if q < 0 then -((-q * 100 + 1/2).floor) else (q * 100 + 1/2).floor
  let sign := if scaled < 0 then "-" else ""
  let n := scaled.natAbs
  sign ++ toString (n / 100) ++ "." ++
    toString (n % 100 / 10) ++ toString (n % 10)

/-- Embeds `formatBytesPerSecond` (sequential variant): the literal
"0 MB/s" when the elapsed seconds value is zero, otherwise the rate in
MiB/s rendered with two decimals. -/
def formatBytesPerSecond (size : Int) (elapsed : Int) : String :=
  if durationSeconds elapsed = 0 then "0 MB/s"
  else fmtTwoDecimals ((size : ℚ) / 1024 / 1024 / durationSeconds elapsed) ++ " MB/s"

/-! ## Watch mode

The event handler of `runRealTimeSync` is embedded as a function from
one notification to the list of filesystem operations it performs.
fsnotify operations are a bitmask: Create = 1, Write = 2, Remove = 4,
Rename = 8, Chmod = 16. -/

/-- A filesystem operation the sync engine can perform on the
destination tree. The watch-mode handler only ever emits `copy`
operations: there is no `MkdirAll` and no `watcher.Add` call anywhere
in the event loop of either variant. -/
inductive FsOp where
  | mkdirAll (path : String) : FsOp
  | copy (src dst : String) : FsOp
deriving DecidableEq, Repr

/-- The filesystem facts `copyFileWithProgress` depends on: whether the
source can be opened, whether the source is a directory (opening a
directory succeeds on unix, reading it fails), and whether a directory
exists (creating a file requires its parent). -/
structure WatchFS where
  srcExists : String → Bool
  srcIsDir : String → Bool
  dirExists : String → Bool

/-- How a run of `copyFileWithProgress src dst` ends. -/
inductive CopyOutcome where
  | openFailed : CopyOutcome
  | createFailed : CopyOutcome
  | readFailed : CopyOutcome
  | copied : CopyOutcome
deriving DecidableEq, Repr

/-- Effect-level embedding of `copyFileWithProgress` (identical control
flow in both variants) over a `WatchFS`: `os.Open(src)` fails if the
source is missing; `os.Create(dst)` fails if the destination's parent
directory is missing (no directory is ever created here); once
`os.Create` succeeds the destination file has been created/truncated,
and `io.Copy` then fails if the source is a directory. The second
component records whether the destination file was created/truncated. -/
def copyFileWithProgress (fs : WatchFS) (src dst : String) : CopyOutcome × Bool :=
  if fs.srcExists src = false then (.openFailed, false)
  else if fs.dirExists (goDir dst) = false then (.createFailed, false)
  else if fs.srcIsDir src then (.readFailed, true)
  else (.copied, true)

/-- Embeds the body of the watch event loop (both variants, which
differ only in the include filter passed as `filter`): when the event
operation has the Write bit or the Create bit and the name passes the
filter, compute the path relative to `sourceDir`, join it onto
`backupDir` and copy; otherwise do nothing. The handler never stats the
path (no directory check), never creates directories, and never
registers new watches. -/
def watchHandlerOps (filter : String → Bool) (sourceDir backupDir : String)
    (op : Nat) (name : String) : List FsOp :=
  if ((op &&& 2 == 2) || (op &&& 1 == 1)) && filter name then
    match goRel sourceDir name with
    | some rel => [FsOp.copy name (goJoin backupDir rel)]
    | none => []
  else []

/-- Registration phase of `runRealTimeSync` (sequential variant, the
one with an include-list branch). `allDirs` is the list of directories
`filepath.Walk` would visit under `sourceDir`. With a non-empty include
list the source builds `pathsToWatch` from the resolved include paths
but never passes any of them to `watcher.Add`, so nothing is
registered; with an empty include list every walked directory is
registered. -/
def setupWatch (cwd sourceDir : String) (includePaths : List String)
    (allDirs : List String) : List String × List String :=
  if includePaths.length > 0 then
    (includePaths.map fun p => goAbs cwd (goJoin sourceDir p), [])
  else
    ([], allDirs)

/-! ## Batch synchronizer (concurrent variant)

`syncDirectories` of the concurrent variant walks the source tree and,
for each file that passes the staleness check and the inclusion filter,
acquires a buffered-channel semaphore slot (`sem <- struct{}{}`,
capacity `maxConcurrentTransfers`) and spawns a goroutine running
`copyFileWithProgress`; the goroutine releases the slot and logs any
copy error. Its interleavings are embedded as a small-step transition
relation. Walk-time filesystem answers are supplied by oracles; the
directory branch of the walk body (a synchronous `MkdirAll` on the
coordinator when the mirrored directory is missing) touches none of the
state below and is modelled as a plain walk step. -/

/-- One entry the tree walk visits. -/
structure FileEntry where
  path : String
  isDir : Bool
deriving DecidableEq, Repr

/-- The walk-time oracles of the batch synchronizer: the configured
include patterns, each source file's modification time, and the
`os.Stat` outcome for the destination path corresponding to each
source path. -/
structure BatchEnv where
  includePatterns : List String
  srcModTime : String → Int
  dstStat : String → StatResult

/-- The condition under which the walk body dispatches a transfer for a
file entry: `shouldCopyFile(path, destPath, info) && shouldInclude(path)`. -/
def eligible (env : BatchEnv) (e : FileEntry) : Bool :=
  shouldCopyFile (env.srcModTime e.path) (env.dstStat e.path) &&
    shouldInclude env.includePatterns e.path

/-- What the transfer goroutine for `e` appends to the log: the
`fmt.Println("Error copying file:", err)` line when
`copyFileWithProgress` failed (the message oracle `copyErr` gives the
error text per source path), nothing on success. -/
def errLog (copyErr : String → Option String) (e : FileEntry) : List (String × String) :=
  match copyErr e.path with
  | some msg => [(e.path, msg)]
  | none => []

/-- A configuration of one `syncDirectories` invocation: the walk
entries not yet visited, the number of semaphore slots currently held
(items buffered in `sem`), the transfers currently in flight, the error
log so far, and whether `syncDirectories` has already returned to its
caller. -/
structure SyncState where
  pending : List FileEntry
  held : Nat
  running : List FileEntry
  logged : List (String × String)
  returned : Bool
deriving DecidableEq, Repr

/-- Small-step semantics of `syncDirectories` (concurrent variant) with
semaphore capacity `N`:
* `visitDir` — the walk body handles a directory entry (stat/MkdirAll
  on the coordinator) and moves on;
* `skipFile` — a file entry fails `shouldCopyFile && shouldInclude`;
* `dispatch` — an eligible file entry: `wg.Add(1)`, the send
  `sem <- struct{}{}` (which blocks unless fewer than `N` slots are
  held), and the `go func` spawn;
* `complete` — an in-flight transfer finishes: its error, if any, is
  printed and the deferred `<-sem` releases the slot (the completing
  goroutine itself holds a slot, hence `held = h + 1`);
* `walkReturn` — the walk has visited every entry and `syncDirectories`
  executes `return filepath.Walk(...)`: the function returns to its
  caller at this point, whatever is still in flight — the `wg.Wait()`
  and `return nil` on the following lines are unreachable dead code. -/
inductive SyncStep (env : BatchEnv) (copyErr : String → Option String) (N : Nat) :
    SyncState → SyncState → Prop where
  | visitDir (e : FileEntry) (rest : List FileEntry) (h : Nat)
      (r : List FileEntry) (lg : List (String × String)) :
      e.isDir = true →
      SyncStep env copyErr N ⟨e :: rest, h, r, lg, false⟩ ⟨rest, h, r, lg, false⟩
  | skipFile (e : FileEntry) (rest : List FileEntry) (h : Nat)
      (r : List FileEntry) (lg : List (String × String)) :
      e.isDir = false → eligible env e = false →
      SyncStep env copyErr N ⟨e :: rest, h, r, lg, false⟩ ⟨rest, h, r, lg, false⟩
  | dispatch (e : FileEntry) (rest : List FileEntry) (h : Nat)
      (r : List FileEntry) (lg : List (String × String)) :
      e.isDir = false → eligible env e = true → h < N →
      SyncStep env copyErr N ⟨e :: rest, h, r, lg, false⟩ ⟨rest, h + 1, e :: r, lg, false⟩
  | complete (p : List FileEntry) (h : Nat) (r₁ : List FileEntry) (e : FileEntry)
      (r₂ : List FileEntry) (lg : List (String × String)) (ret : Bool) :
      SyncStep env copyErr N ⟨p, h + 1, r₁ ++ e :: r₂, lg, ret⟩
        ⟨p, h, r₁ ++ r₂, lg ++ errLog copyErr e, ret⟩
  | walkReturn (h : Nat) (r : List FileEntry) (lg : List (String × String)) :
      SyncStep env copyErr N ⟨[], h, r, lg, false⟩ ⟨[], h, r, lg, true⟩

/-- The state in which `syncDirectories` begins: the whole tree yet to
walk, the semaphore empty, nothing in flight, nothing logged. -/
def initState (entries : List FileEntry) : SyncState :=
  ⟨entries, 0, [], [], false⟩

/-- Reachability in the small-step semantics. -/
def SyncReach (env : BatchEnv) (copyErr : String → Option String) (N : Nat) :
    SyncState → SyncState → Prop :=
  Relation.ReflTransGen (SyncStep env copyErr N)

/-- Every step preserves `running.length ≤ held ∧ held ≤ N`: a transfer
is only spawned after its `sem` send succeeded, and the send succeeds
only while fewer than `N` slots are buffered. -/
theorem syncStep_inv {env : BatchEnv} {copyErr : String → Option String} {N : Nat}
    {s s' : SyncState} (hstep : SyncStep env copyErr N s s')
    (h₁ : s.running.length ≤ s.held) (h₂ : s.held ≤ N) :
    s'.running.length ≤ s'.held ∧ s'.held ≤ N := by
  cases hstep with
  | visitDir e rest h r lg _ => exact ⟨h₁, h₂⟩
  | skipFile e rest h r lg _ _ => exact ⟨h₁, h₂⟩
  | dispatch e rest h r lg _ _ hlt =>
      refine ⟨?_, hlt⟩
      simpa using Nat.succ_le_succ h₁
  | complete p h r₁ e r₂ lg ret =>
      simp only [List.length_append, List.length_cons] at h₁ h₂ ⊢
      omega
  | walkReturn h r lg => exact ⟨h₁, h₂⟩

/-- The invariant holds in every state reachable from the initial one. -/
theorem syncReach_inv (env : BatchEnv) (copyErr : String → Option String) (N : Nat)
    (entries : List FileEntry) (s : SyncState)
    (h : SyncReach env copyErr N (initState entries) s) :
    s.running.length ≤ s.held ∧ s.held ≤ N := by
  induction h with
  | refl => exact ⟨Nat.le_refl 0, Nat.zero_le N⟩
  | tail _ hstep ih => exact syncStep_inv hstep ih.1 ih.2

/-- The eager schedule of the concurrent synchronizer (valid whenever
`N ≥ 1`): the walk dispatches each eligible file and its transfer runs
to completion — logging its error, if any, and releasing its slot —
before the walk proceeds. Returns the source paths attempted, in walk
order, and the error log. -/
def runSyncEager (env : BatchEnv) (copyErr : String → Option String) :
    List FileEntry → List String × List (String × String)
  | [] => ([], [])
  | e :: rest =>
    let acc := runSyncEager env copyErr rest
    if e.isDir then acc
    else if eligible env e then (e.path :: acc.1, errLog copyErr e ++ acc.2)
    else acc

/-! ## Batch synchronizer (sequential variant)

`syncDirectories` of the sequential variant takes the include list as
an argument, skips entries that fail `matchesAnyInclude` when the list
is non-empty, and calls `copyFileWithProgress` synchronously; a copy
error is returned from the walk callback, which makes `filepath.Walk`
abort the remaining traversal and `syncDirectories` return that
error. -/

/-- Walk-time oracles of the sequential synchronizer. -/
structure SeqEnv where
  srcModTime : String → Int
  dstStat : String → StatResult

/-- Embeds `syncDirectories` (sequential variant). `copyErr` gives the
outcome of each `copyFileWithProgress` call. Returns the source paths
for which a copy was attempted, in walk order, and the error
`syncDirectories` returns (`none` on success). A failing copy ends the
walk at that entry. -/
def syncDirectoriesSeq (env : SeqEnv) (copyErr : String → Option String)
    (includes : List String) :
    List FileEntry → List String → List String × Option String
  | [], attempted => (attempted, none)
  | e :: rest, attempted =>
    if includes.length > 0 && !matchesAnyInclude e.path includes then
      syncDirectoriesSeq env copyErr includes rest attempted
    else if e.isDir then
      syncDirectoriesSeq env copyErr includes rest attempted
    else if shouldCopyFile (env.srcModTime e.path) (env.dstStat e.path) then
      match copyErr e.path with
      | some msg => (attempted ++ [e.path], some msg)
      | none => syncDirectoriesSeq env copyErr includes rest (attempted ++ [e.path])
    else
      syncDirectoriesSeq env copyErr includes rest attempted

/-! ## Shared concrete instances used by the claim theorems -/

/-- A single eligible regular file. -/
def efile : FileEntry := ⟨"a.txt", false⟩

/-- Oracles under which every file is eligible: no include patterns,
every destination missing. -/
def env0 : BatchEnv := ⟨[], fun _ => 1, fun _ => .notExist⟩

/-- Every transfer succeeds. -/
def cErr0 : String → Option String := fun _ => none

/-! ## Helper lemmas -/

/-- `shouldInclude` decides: empty rule set, or some pattern occurs in
the base name. -/
theorem shouldInclude_iff (rules : List String) (path : String) :
    shouldInclude rules path = true ↔
      rules = [] ∨ ∃ r ∈ rules, Substr r (goBase path) := by
  cases rules with
  | nil => simp [shouldInclude]
  | cons a as =>
      simp [shouldInclude, List.any_eq_true, goContains_iff_substr]

/-- `shouldWatch` decides: empty include list, or some entry occurs in
the base name or in the containing directory path. -/
theorem shouldWatch_iff (path : String) (includes : List String) :
    shouldWatch path includes = true ↔
      includes = [] ∨
        ∃ r ∈ includes, Substr r (goBase path) ∨ Substr r (goDir path) := by
  cases includes with
  | nil => simp [shouldWatch]
  | cons a as =>
      simp [shouldWatch, List.any_eq_true, goContains_iff_substr]

/-- `matchesAnyInclude` decides: some entry occurs in the base name or
in the containing directory path — with no empty-rule-set clause. -/
theorem matchesAnyInclude_iff (path : String) (includes : List String) :
    matchesAnyInclude path includes = true ↔
      ∃ r ∈ includes, Substr r (goBase path) ∨ Substr r (goDir path) := by
  simp [matchesAnyInclude, List.any_eq_true, goContains_iff_substr]

/-- The empty string is a substring of everything. -/
theorem substr_empty (s : String) : Substr "" s :=
  ⟨[], s.data, by simp⟩

/-- The eager run of the concurrent synchronizer attempts exactly the
eligible files, in walk order, and logs exactly their failures. -/
theorem runSyncEager_eq (env : BatchEnv) (copyErr : String → Option String)
    (entries : List FileEntry) :
    runSyncEager env copyErr entries =
      (((entries.filter fun e => !e.isDir && eligible env e).map FileEntry.path),
       ((entries.filter fun e => !e.isDir && eligible env e).map (errLog copyErr)).flatten) := by
  induction entries with
  | nil => rfl
  | cons e rest ih =>
      cases hd : e.isDir with
      | true => simp [runSyncEager, hd, ih]
      | false =>
          cases hel : eligible env e with
          | true => simp [runSyncEager, hd, hel, ih]
          | false => simp [runSyncEager, hd, hel, ih]

/-! ## Claim theorems -/

/-- C1 (code evaluated at the failing input): with one eligible file and
one permit, `syncDirectories` can dispatch the file's transfer and then
return to its caller while that transfer is still in flight — the
`wg.Wait()` barrier sits after `return filepath.Walk(...)` and is dead
code, so the reachable state below has `returned = true` with a running
transfer. -/
theorem syncDirectories_returns_with_transfer_in_flight :
    SyncReach env0 cErr0 1 (initState [efile]) (SyncState.mk [] 1 [efile] [] true)
    ∧ (SyncState.mk [] 1 [efile] [] true).returned = true
    ∧ (SyncState.mk [] 1 [efile] [] true).running.length = 1 := by
  refine ⟨?_, rfl, rfl⟩
  exact Relation.ReflTransGen.tail
    (Relation.ReflTransGen.single
      (SyncStep.dispatch efile [] 0 [] [] (by decide) (by decide) (by decide)))
    (SyncStep.walkReturn 1 [efile] [])

/-- C2: in every state reachable during a batch sync with semaphore
capacity `N`, the number of transfers in flight is at most `N`: each
transfer is spawned only after its `sem` send succeeded, and at most
`N` sends can be outstanding. -/
theorem sync_concurrency_bounded (env : BatchEnv) (copyErr : String → Option String)
    (N : Nat) (entries : List FileEntry) (s : SyncState)
    (h : SyncReach env copyErr N (initState entries) s) :
    s.running.length ≤ N :=
  (syncReach_inv env copyErr N entries s h).1.trans
    (syncReach_inv env copyErr N entries s h).2

/-- C2 witness: a concrete reachable state of a two-permit sync with
one transfer in flight satisfies the bound. -/
theorem sync_concurrency_bounded_witness :
    (SyncState.mk [] 1 [efile] [] false).running.length ≤ 2 :=
  sync_concurrency_bounded env0 cErr0 2 [efile] (SyncState.mk [] 1 [efile] [] false)
    (Relation.ReflTransGen.single
      (SyncStep.dispatch efile [] 0 [] [] (by decide) (by decide) (by decide)))

/-- C3 counterexample: on the empty rule set — for which the claim
demands `true` — the directory-scoped filter `matchesAnyInclude`
returns `false` (its loop body never runs; the source has no
empty-rule-set branch). -/
theorem matchesAnyInclude_empty_rules_cex :
    matchesAnyInclude "report.csv" ([] : List String) = false
    ∧ ([] : List String) = [] := by
  decide

/-- C3 (amended): `shouldInclude` is true iff the rule set is empty or
some pattern is a substring of the base name; the watch-mode
directory-scoped filter `shouldWatch` is true iff the include list is
empty or some entry is a substring of the base name or of the
containing directory path; the walk-mode directory-scoped filter
`matchesAnyInclude` satisfies the same disjunction but WITHOUT the
empty-set clause (its caller only consults it when the list is
non-empty); and an empty-string pattern matches every path. -/
theorem inclusion_filter_spec :
    (∀ rules path, shouldInclude rules path = true ↔
        rules = [] ∨ ∃ r ∈ rules, Substr r (goBase path))
  ∧ (∀ path includes, shouldWatch path includes = true ↔
        includes = [] ∨ ∃ r ∈ includes, Substr r (goBase path) ∨ Substr r (goDir path))
  ∧ (∀ path includes, matchesAnyInclude path includes = true ↔
        ∃ r ∈ includes, Substr r (goBase path) ∨ Substr r (goDir path))
  ∧ (∀ rules path, "" ∈ rules → shouldInclude rules path = true) :=
  ⟨shouldInclude_iff, shouldWatch_iff, matchesAnyInclude_iff,
   fun rules path hmem =>
     (shouldInclude_iff rules path).mpr (Or.inr ⟨"", hmem, substr_empty _⟩)⟩

/-- C3 witness: an empty-string pattern makes `shouldInclude` accept a
path whose name shares nothing with any pattern. -/
theorem inclusion_filter_spec_witness :
    "" ∈ [""] ∧ shouldInclude [""] "image.png" = true :=
  ⟨by decide, inclusion_filter_spec.2.2.2 [""] "image.png" (by decide)⟩

/-- C4: the staleness check copies when the destination is missing,
skips on any other stat failure, and otherwise copies iff the source
modification time is strictly after the destination's — equal times
yield false. -/
theorem shouldCopyFile_spec (srcMod : Int) :
    shouldCopyFile srcMod .notExist = true
  ∧ shouldCopyFile srcMod .statFailed = false
  ∧ (∀ dstMod : Int, shouldCopyFile srcMod (.found dstMod) = true ↔ dstMod < srcMod)
  ∧ shouldCopyFile srcMod (.found srcMod) = false := by
  refine ⟨rfl, rfl, fun dstMod => ?_, ?_⟩
  · simp [shouldCopyFile]
  · simp [shouldCopyFile]

/-- C5 (code evaluated at the failing input): with include list
`["sub"]` under source `/src`, the watch setup resolves the include
path to `/src/sub` but registers nothing with the watcher — the
`pathsToWatch` list is built and never passed to `watcher.Add`; only
the empty-include branch registers the walked directories. -/
theorem setupWatch_include_list_registers_nothing :
    (setupWatch "/" "/src" ["sub"] ["/src", "/src/sub"]).2 = []
  ∧ (setupWatch "/" "/src" ["sub"] ["/src", "/src/sub"]).1 = ["/src/sub"]
  ∧ (setupWatch "/" "/src" [] ["/src", "/src/sub"]).2 = ["/src", "/src/sub"] := by
  decide

/-- Oracles for the sequential-variant counterexample: every
destination missing, so every file needs copying. -/
def envSeq : SeqEnv := ⟨fun _ => 1, fun _ => .notExist⟩

/-- The copy of `a.txt` fails; every other copy succeeds. -/
def cErrFail : String → Option String :=
  fun p => if p = "a.txt" then some "disk full" else none

/-- C6 counterexample: in the sequential variant a failing copy of
`a.txt` makes `syncDirectories` return that error at once — the
sibling `b.txt` is never attempted, so a copy failure on one file does
abort the sync of sibling files there. -/
theorem syncDirectoriesSeq_abort_cex :
    syncDirectoriesSeq envSeq cErrFail []
        [⟨"a.txt", false⟩, ⟨"b.txt", false⟩] [] = (["a.txt"], some "disk full")
    ∧ (syncDirectoriesSeq envSeq cErrFail []
        [⟨"a.txt", false⟩, ⟨"b.txt", false⟩] []).1.contains "b.txt" = false := by
  decide

/-- C6 (amended): in the concurrent batch synchronizer the claim holds —
whenever a dispatched transfer is in flight, its completion step is
enabled in any state, appends the failure (with the offending path) to
the log, releases its semaphore slot, and leaves the walk's pending
entries and the returned flag untouched; and a full batch run attempts
exactly the eligible files in walk order and logs exactly the failing
ones, no matter which transfers fail. (In the sequential variant a
copy failure instead aborts the walk, and the watch loops discard the
error.) -/
theorem copy_failure_isolated_conc :
    (∀ (env : BatchEnv) (copyErr : String → Option String) (N : Nat)
        (p : List FileEntry) (h : Nat) (r₁ : List FileEntry) (e : FileEntry)
        (r₂ : List FileEntry) (lg : List (String × String)) (ret : Bool),
      SyncStep env copyErr N ⟨p, h + 1, r₁ ++ e :: r₂, lg, ret⟩
        ⟨p, h, r₁ ++ r₂, lg ++ errLog copyErr e, ret⟩)
  ∧ (∀ (env : BatchEnv) (copyErr : String → Option String)
        (entries : List FileEntry),
      runSyncEager env copyErr entries =
        (((entries.filter fun e => !e.isDir && eligible env e).map FileEntry.path),
         ((entries.filter fun e => !e.isDir && eligible env e).map
            (errLog copyErr)).flatten)) :=
  ⟨fun _ _ _ p h r₁ e r₂ lg ret => SyncStep.complete p h r₁ e r₂ lg ret,
   runSyncEager_eq⟩

/-- The filesystem as the C7 scenario sees it: the new source file
exists, nothing is a directory, and of the destination tree only
`/backup` itself exists — `/backup/sub` has not been recreated. -/
def fs7 : WatchFS :=
  ⟨fun p => p == "/src/sub/new.txt", fun _ => false, fun d => d == "/backup"⟩

/-- C7 (code evaluated at the failing input): on a Create event for
`/src/sub/new.txt`, the watch handler emits only the copy — no
`MkdirAll` of the destination parent anywhere in the event loop — and
the transfer then fails at `os.Create` because `/backup/sub` does not
exist. -/
theorem watch_no_parent_dir_creation :
    watchHandlerOps (shouldInclude []) "/src" "/backup" 1 "/src/sub/new.txt" =
      [FsOp.copy "/src/sub/new.txt" "/backup/sub/new.txt"]
  ∧ copyFileWithProgress fs7 "/src/sub/new.txt" "/backup/sub/new.txt" =
      (.createFailed, false) := by
  decide

/-- The filesystem as the C8 scenario sees it: `/src/newdir` is a
directory that exists, and the destination root `/backup` exists. -/
def fs8 : WatchFS :=
  ⟨fun p => p == "/src/newdir", fun p => p == "/src/newdir", fun d => d == "/backup"⟩

/-- C8 counterexample: a Create notification for the directory
`/src/newdir` is NOT ignored — the handler has no directory check, so
it dispatches a transfer, and that transfer creates/truncates the
destination file `/backup/newdir` before failing to read the
directory. -/
theorem watch_dir_event_cex :
    fs8.srcIsDir "/src/newdir" = true
  ∧ watchHandlerOps (shouldInclude []) "/src" "/backup" 1 "/src/newdir" =
      [FsOp.copy "/src/newdir" "/backup/newdir"]
  ∧ copyFileWithProgress fs8 "/src/newdir" "/backup/newdir" = (.readFailed, true) := by
  decide

/-- C8 (amended): the watch handler never inspects whether the changed
path is a directory — any Write/Create notification that passes the
include filter dispatches a transfer, and for a directory source that
transfer creates/truncates the destination file and then fails reading
the directory; the handler performs no re-registration of new
directories. -/
theorem watch_dir_event_dispatches (filter : String → Bool) (srcD dstD : String)
    (fs : WatchFS) (op : Nat) (name rel : String)
    (hop : (op &&& 2 == 2 || op &&& 1 == 1) = true)
    (hf : filter name = true)
    (hrel : goRel srcD name = some rel)
    (hopen : fs.srcExists name = true)
    (hdir : fs.srcIsDir name = true)
    (hparent : fs.dirExists (goDir (goJoin dstD rel)) = true) :
    watchHandlerOps filter srcD dstD op name = [FsOp.copy name (goJoin dstD rel)]
    ∧ copyFileWithProgress fs name (goJoin dstD rel) = (.readFailed, true) := by
  constructor
  · unfold watchHandlerOps
    rw [hop, hf, hrel]
    simp
  · simp [copyFileWithProgress, hopen, hdir, hparent]

/-- C8 witness: the amended statement instantiated at the concrete
directory-creation scenario. -/
theorem watch_dir_event_dispatches_witness :
    watchHandlerOps (shouldInclude []) "/src" "/backup" 1 "/src/newdir" =
      [FsOp.copy "/src/newdir" (goJoin "/backup" "newdir")]
    ∧ copyFileWithProgress fs8 "/src/newdir" (goJoin "/backup" "newdir") =
      (.readFailed, true) :=
  watch_dir_event_dispatches (shouldInclude []) "/src" "/backup" fs8 1
    "/src/newdir" "newdir" (by decide) (by decide) (by decide) (by decide)
    (by decide) (by decide)

/-- C9: the throughput report's guard `elapsed.Seconds() == 0` holds
exactly when the elapsed nanosecond count is zero; in that case both
reporters return their zero value (`0`, resp. "0 MB/s"), and otherwise
the division's divisor is provably non-zero — the division-by-zero
branch is unreachable. -/
theorem throughput_zero_guard (size elapsed : Int) :
    (durationSeconds elapsed = 0 ↔ elapsed = 0)
  ∧ (elapsed = 0 → calculateMBPerSecond size elapsed = 0 ∧
       formatBytesPerSecond size elapsed = "0 MB/s")
  ∧ (elapsed ≠ 0 → durationSeconds elapsed * 1024 * 1024 ≠ 0 ∧
       calculateMBPerSecond size elapsed =
         (size : ℚ) / (durationSeconds elapsed * 1024 * 1024)) := by
  have hiff : durationSeconds elapsed = 0 ↔ elapsed = 0 := by
    simp [durationSeconds, div_eq_zero_iff]
  refine ⟨hiff, ?_, ?_⟩
  · rintro rfl
    exact ⟨by simp [calculateMBPerSecond, durationSeconds],
           by simp [formatBytesPerSecond, durationSeconds]⟩
  · intro hne
    have hd : durationSeconds elapsed ≠ 0 := fun h => hne (hiff.mp h)
    refine ⟨mul_ne_zero (mul_ne_zero hd (by norm_num)) (by norm_num), ?_⟩
    simp [calculateMBPerSecond, hd]

/-- C9 witness: one MiB over zero elapsed time reports zero; two MiB
over one second reports the exact rate with a non-zero divisor. -/
theorem throughput_zero_guard_witness :
    (calculateMBPerSecond 1048576 0 = 0 ∧ formatBytesPerSecond 1048576 0 = "0 MB/s")
  ∧ calculateMBPerSecond 2097152 1000000000 =
      (2097152 : ℚ) / (durationSeconds 1000000000 * 1024 * 1024) :=
  ⟨(throughput_zero_guard 1048576 0).2.1 rfl,
   ((throughput_zero_guard 2097152 1000000000).2.2 (by decide)).2⟩

/-- C10: a notification whose operation bitmask has neither the Write
bit nor the Create bit set (Remove, Rename, Chmod, ...) makes the watch
handler perform no filesystem operation at all, whatever the include
filter says. -/
theorem watch_other_ops_ignored (filter : String → Bool) (srcD dstD : String)
    (op : Nat) (name : String)
    (hw : (op &&& 2 == 2) = false) (hc : (op &&& 1 == 1) = false) :
    watchHandlerOps filter srcD dstD op name = [] := by
  unfold watchHandlerOps
  rw [hw, hc]
  simp

/-- C10 witness: a Chmod notification (bit 16) dispatches nothing even
under an accept-everything filter. -/
theorem watch_other_ops_ignored_witness :
    watchHandlerOps (fun _ => true) "/src" "/backup" 16 "/src/x.txt" = [] :=
  watch_other_ops_ignored (fun _ => true) "/src" "/backup" 16 "/src/x.txt"
    (by decide) (by decide)

end Gosync
